import Mathlib

/-!
Verification of the replimod entity/REST mapping layer.

The repository ships two generations of the library in `src/index.js`:

* v1: a `ModelBuilder` producing subclasses of an abstract `Model` whose
  constructor binds a RestClient handle and whose `fillIn` hydrates the
  instance's own properties (`src/index.js`, first module).
* v2: a static-configuration `Model` class (`useBaseURL` / `useName`),
  whose `fillIn` writes into an internal `_data` bag
  (`src/index.js`, second module).

The string utility `camelToKebab` lives in `src/util.js` (identical to
`camelCaseToHyphen` in `src/unnamed/part_001`).

All definitions below are shallow embeddings translated from that source.
JavaScript values are modelled by `Replimod.JSValue`; raw wire payloads are
association lists of own properties in insertion order; the transport client
(out of scope per the specification) is an abstract function from requests
to responses, and every operation additionally returns the list of requests
it issued so that "no network call" claims are statable.
-/

deriving instance DecidableEq for Except

namespace Replimod

/-- A path segment of a transport resource handle: `api.res("cars")` gives a
string segment, narrowing a handle with a numeric identity gives a numeric
segment; any other value used as a segment is collapsed to `other`. -/
inductive PathSeg where
  | s (v : String)
  | n (v : Int)
  | other
deriving DecidableEq

/-- JavaScript values as far as the library observes them.  `strObj` is a
`String` wrapper object carrying, as data, whether `new Date(...)` on it
parses (`parsesAsDate`) and the resulting timestamp; a primitive string
`str` is NOT an `instanceof String` in JavaScript, which the v1 `fillIn`
date-coercion check relies on.  `fn` is a function value (prototype
methods); `handle` is a callable RestClient resource handle (the transport
contract makes resource accessors callable, hence `instanceof Function`). -/
inductive JSValue where
  | undefined
  | null
  | bool (b : Bool)
  | num (n : Int)
  | str (s : String)
  | strObj (s : String) (parsesAsDate : Bool) (dateVal : Int)
  | date (d : Int)
  | fn (name : String)
  | handle (path : List PathSeg)
deriving DecidableEq

/-- A raw JavaScript object: its own properties in insertion order. -/
abbrev RawObj := List (String × JSValue)

/-- JavaScript truthiness for the modelled values.  `undefined`, `null`,
`false`, `0` and the empty string are falsy; every object (including
`String` wrappers, dates, functions and handles) is truthy. -/
def truthy : JSValue → Bool
  | .undefined => false
  | .null => false
  | .bool b => b
  | .num n => !(n == 0)
  | .str s => !(s == "")
  | .strObj _ _ _ => true
  | .date _ => true
  | .fn _ => true
  | .handle _ => true

/-- The `instanceof Function` test: function values and callable resource
handles are functions; data values are not. -/
def isFn : JSValue → Bool
  | .fn _ => true
  | .handle _ => true
  | _ => false

/-- Convert an identity value into a path segment (narrowing a handle). -/
def toSeg : JSValue → PathSeg
  | .num n => .n n
  | .str s => .s s
  | _ => .other

/-- First-occurrence lookup of an own property. -/
def rawGet : RawObj → String → Option JSValue
  | [], _ => none
  | (k', v') :: rest, k => if k' = k then some v' else rawGet rest k

/-- Own-property lookup defaulting to `undefined`, as property access does. -/
def rawGetD (o : RawObj) (k : String) : JSValue :=
  match rawGet o k with
  | some v => v
  | none => .undefined

/-- Property assignment `o[k] = v`: updates the first occurrence of `k` in
place, or appends a fresh property at the end (JavaScript objects keep
insertion order and never duplicate keys). -/
def rawSet : RawObj → String → JSValue → RawObj
  | [], k, v => [(k, v)]
  | (k', v') :: rest, k, v =>
    if k' = k then (k, v) :: rest else (k', v') :: rawSet rest k v

/-- Sequential assignment of every property of `src` into `dst`, in order:
the loop body of the v2 `fillIn`. -/
def rawSetAll : RawObj → RawObj → RawObj
  | dst, [] => dst
  | dst, kv :: rest => rawSetAll (rawSet dst kv.1 kv.2) rest

/-! ## The case converter (`camelToKebab` in `src/util.js`)

```js
function camelToKebab(input) {
    for (let i = 0; i < input.length; ++i) {
        if (input[i].toUpperCase() === input[i] && i > 0) {
            input = input.replace(input[i], "-" + input[i].toLowerCase());
        }
    }
    return input.toLowerCase();
}
```

`String.prototype.replace` with a string pattern replaces only the FIRST
occurrence, and the guard `input[i].toUpperCase() === input[i]` also holds
for characters that are not letters at all (digits, hyphens, ...).  The
loop mutates `input` while `i` keeps advancing, so it need not terminate:
it is embedded with explicit fuel. -/

/-- `input.replace(String.fromCharCode(t), rep)`: replace the first
occurrence of the single character `t` by the string `rep`. -/
def replaceFirstChar : List Char → Char → List Char → List Char
  | [], _, _ => []
  | c :: cs, t, rep => if c = t then rep ++ cs else c :: replaceFirstChar cs t rep

/-- One fuelled run of the `for` loop of `camelToKebab`, starting at
index `i` on the current string `s`. -/
def kebabLoop : Nat → Nat → List Char → Option (List Char)
  | 0, _, _ => none
  | fuel + 1, i, s =>
    if h : i < s.length then
      if (s[i]).toUpper = s[i] ∧ 0 < i then
        kebabLoop fuel (i + 1) (replaceFirstChar s (s[i]) ['-', (s[i]).toLower])
      else
        kebabLoop fuel (i + 1) s
    else
      some s

/-- `camelToKebab` with explicit fuel for the (possibly divergent) loop;
`none` means the fuel ran out with the loop still running. -/
def camelToKebabFuel (fuel : Nat) (input : String) : Option String :=
  match kebabLoop fuel 0 input.data with
  | some l => some (String.mk (l.map Char.toLower))
  | none => none

/-- The loop of `camelToKebab` runs forever on `input`: no amount of fuel
makes it return. -/
def camelToKebabDiverges (input : String) : Prop :=
  ∀ fuel : Nat, camelToKebabFuel fuel input = none

/-- Modelled from the spec's words, for comparison with the source function
(refinement check only): "For every character at index > 0 that is an
uppercase letter, insert a hyphen immediately before it and lowercase it;
finally lowercase the whole result." -/
def specHyphenateTail : List Char → List Char
  | [] => []
  | c :: cs =>
    (if c.isUpper then ['-', c.toLower] else [c.toLower]) ++ specHyphenateTail cs

/-- The spec's converter on a whole string (index 0 is never split). -/
def specCamelToKebab (input : String) : String :=
  match input.data with
  | [] => ""
  | c :: cs => String.mk (c.toLower :: specHyphenateTail cs)

/-! ## Transport model

Per the specification (section 6) the transport client is an external
collaborator.  A transport is a function from outgoing requests to results;
each library operation also returns the list of requests it issued. -/

/-- HTTP verb methods of a scoped resource. -/
inductive Verb where
  | get
  | post
  | patch
  | delete
deriving DecidableEq

/-- One outgoing call through a resource handle. -/
structure Request where
  verb : Verb
  path : List PathSeg
  payload : Option RawObj
deriving DecidableEq

/-- An opaque transport-level failure (network error, non-2xx status). -/
inductive TErr where
  | fail (code : Nat)
deriving DecidableEq

/-- A transport response: a raw object, a raw array, or an opaque result
(for DELETE). -/
inductive TResponse where
  | obj (r : RawObj)
  | arr (rs : List RawObj)
  | done (v : JSValue)
deriving DecidableEq

/-- The abstract transport client. -/
def Transport := Request → Except TErr TResponse

/-- Errors a modelled operation can surface: JavaScript faults
(`referenceError`, `typeError`), propagated transport failures, fuel
exhaustion of the (possibly divergent) case converter, a call of a plain
function value the model does not interpret, and a transport response whose
shape falls outside the contract of specification section 6. -/
inductive RunErr where
  | referenceError
  | typeError
  | unmodeledCall
  | fuelExhausted
  | transport (e : TErr)
  | badResponse
deriving DecidableEq

/-! ## v1: the `ModelBuilder` module of `src/index.js`

The v1 `Model` constructor reads, in its first two statements, the
identifiers `getAPIHost` and `resourceName`:

```js
const api = new RestClient(getAPIHost());
resourceName = camelCaseToHyphen(this.constructor.config.resource);
```

Neither name is declared in or imported by the module, whose module-level
scope is recorded below; ES modules run in strict mode, so both the lookup
of `getAPIHost` and the assignment to the undeclared `resourceName` fault
with a `ReferenceError`. -/

/-- The names bound at module level in the v1 module of `src/index.js`:
the two imports and the four declarations. -/
def moduleEnvV1 : List String :=
  ["RestClient", "camelCaseToHyphen", "NoResourceError", "NoBaseURLError",
   "Model", "ModelBuilder"]

/-- Evaluate an identifier appearing in the v1 module body: a name absent
from the module scope (and from the pristine global scope assumed for the
library) faults with a `ReferenceError`. -/
def evalIdentV1 (name : String) : Except RunErr Unit :=
  if moduleEnvV1.contains name then .ok () else .error .referenceError

/-- A v1 entity instance: its own properties, in insertion order.  The
RestClient handle lives under the key `"$resource"`, the identity under
`"id"`, exactly as on the JavaScript object. -/
structure InstanceV1 where
  props : RawObj
deriving DecidableEq

/-- The own method names of `Model.prototype` in the v1 module (reads of
these names on an instance find a function on the prototype). -/
def protoMethodNamesV1 : List String :=
  ["constructor", "fillIn", "retrieve", "update", "delete"]

/-- Property read `this[prop]` on a v1 instance: own properties first,
then the `Model.prototype` methods, else `undefined`. -/
def propLookupV1 (props : RawObj) (k : String) : JSValue :=
  match rawGet props k with
  | some v => v
  | none => if protoMethodNamesV1.contains k then .fn k else .undefined

/-- The v1 `Model` constructor.  Its first statement evaluates the
unresolved identifier `getAPIHost`, so every construction faults before
any further work; the remaining statements (the strict-mode write to the
undeclared `resourceName`, resource registration, and the id/object
branches) are unreachable and the fall-through below records the fault the
very next statement would raise. -/
def constructorV1 (arg : JSValue) : Except RunErr InstanceV1 := do
  let _ ← evalIdentV1 "getAPIHost"
  let _ := arg
  .error .referenceError

/-- The date coercion inside the v1 `fillIn` loop:
`obj[prop] instanceof String` holds only for `String` wrapper objects
(never for primitive strings), and a successful `new Date(...)` parse
replaces the property by the date. -/
def coerceDate : JSValue → JSValue
  | .strObj s true d =>
    let _ := s
    .date d
  | v => v

/-- One iteration of the v1 `fillIn` loop on property `kv`: coerce the
value in place on `obj`, then assign it onto `this` unless `this[prop]` is
already a truthy function (merging never shadows a behavior).  Returns the
updated own properties and the (possibly coerced) property of `obj`. -/
def fillStepV1 (props : RawObj) (kv : String × JSValue) :
    RawObj × (String × JSValue) :=
  let v := coerceDate kv.2
  let cur := propLookupV1 props kv.1
  ((if truthy cur = false ∨ isFn cur = false then rawSet props kv.1 v else props),
   (kv.1, v))

/-- The whole v1 `fillIn` loop over the properties of `obj`, in order.
Returns the updated own properties and the mutated `obj`. -/
def fillLoopV1 : RawObj → RawObj → RawObj × RawObj
  | props, [] => (props, [])
  | props, kv :: rest =>
    let step := fillStepV1 props kv
    let tail := fillLoopV1 step.1 rest
    (tail.1, step.2 :: tail.2)

/-- v1 `fillIn`: no `beforeFillIn`/`afterFillIn` hook is defined on `Model`
or on the classes `build()` returns, so both hook calls are skipped; after
the merge loop, a truthy `id` rebinds `$resource` to the singular path by
calling the current handle with the id (`this.$resource = this.$resource(this.id)`).
Calling a non-callable `$resource` value faults with a `TypeError`; calling
a plain function value is outside the model.  The function returns `this`
(the updated instance) and the mutated `obj`. -/
def fillInV1 (inst : InstanceV1) (obj : RawObj) :
    Except RunErr (InstanceV1 × RawObj) :=
  let step := fillLoopV1 inst.props obj
  let props1 := step.1
  let obj1 := step.2
  if truthy (rawGetD props1 "id") then
    match rawGetD props1 "$resource" with
    | .handle p =>
      .ok (⟨rawSet props1 "$resource"
            (.handle (p ++ [toSeg (rawGetD props1 "id")]))⟩, obj1)
    | .fn _ => .error .unmodeledCall
    | _ => .error .typeError
  else
    .ok (⟨props1⟩, obj1)

/-- The data bag of a v1 instance: every own property except the
`$resource` handle (the claims' "data-bag content"). -/
def dataBagV1 (inst : InstanceV1) : RawObj :=
  inst.props.filter (fun kv => kv.1 ≠ "$resource")

/-- The result of a hydration attempt viewed as a data bag: `some` bag on
success, `none` on a fault. -/
def dataBagOfResultV1 : Except RunErr (InstanceV1 × RawObj) → Option RawObj
  | .ok res => some (dataBagV1 res.1)
  | .error _ => none

/-- The path of the `$resource` handle of a v1 instance, as the CRUD
methods dereference it. -/
def handlePathV1 (inst : InstanceV1) : Except RunErr (List PathSeg) :=
  match rawGetD inst.props "$resource" with
  | .handle p => .ok p
  | .fn _ => .error .unmodeledCall
  | _ => .error .typeError

/-- v1 static `create`: `new this()` then POST and hydrate.  The
construction faults (see `constructorV1`), so the POST is never issued. -/
def createV1 (data : RawObj) (t : Transport) :
    Except RunErr (InstanceV1 × RawObj) × List Request :=
  match constructorV1 .undefined with
  | .error e => (.error e, [])
  | .ok inst =>
    match handlePathV1 inst with
    | .error e => (.error e, [])
    | .ok path =>
      let req : Request := ⟨.post, path, some data⟩
      match t req with
      | .error e => (.error (.transport e), [req])
      | .ok (.obj r) =>
        match fillInV1 inst r with
        | .ok res => (.ok res, [req])
        | .error e => (.error e, [req])
      | .ok _ => (.error .badResponse, [req])

/-- v1 static `list`: `new this().$resource.get(args)` then, per element,
`new this()` followed by `fillIn`.  The very first construction faults, so
no GET is ever issued. -/
def listV1 (args : RawObj) (t : Transport) :
    Except RunErr (List InstanceV1) × List Request :=
  match constructorV1 .undefined with
  | .error e => (.error e, [])
  | .ok inst0 =>
    match handlePathV1 inst0 with
    | .error e => (.error e, [])
    | .ok path =>
      let req : Request := ⟨.get, path, some args⟩
      match t req with
      | .error e => (.error (.transport e), [req])
      | .ok (.arr rs) =>
        let hydrated := rs.mapM (fun r => do
          let inst ← constructorV1 .undefined
          let res ← fillInV1 inst r
          pure res.1)
        match hydrated with
        | .ok l => (.ok l, [req])
        | .error e => (.error e, [req])
      | .ok _ => (.error .typeError, [req])

/-! ## v1: `ModelBuilder`

The builder keeps one mutable configuration object (`this.config`); every
fluent method mutates that same object in place, and `build()` captures a
reference to it (`const config = this.config;`) which the returned class's
`config` getter keeps returning.  To make this aliasing observable the
embedding uses an explicit heap of configuration objects: a builder holds a
reference into the heap, and so does a built entity type. -/

/-- The configuration object a `ModelBuilder` assembles.  `resource` and
`baseURL` start as `null` (modelled `none`); request listeners are opaque
callbacks identified by numbers. -/
structure ConfigV1 where
  resource : Option String
  baseURL : Option String
  requestListeners : List Nat
  innerResources : List String
deriving DecidableEq

/-- The initial configuration set up by the `ModelBuilder` constructor. -/
def initialConfigV1 : ConfigV1 := ⟨none, none, [], []⟩

/-- The heap of live configuration objects. -/
abbrev Heap := List ConfigV1

/-- A builder: a reference to its configuration object. -/
structure BuilderRef where
  ref : Nat
deriving DecidableEq

/-- A built entity type: the reference its `config` getter captured. -/
structure BuiltRef where
  cfgRef : Nat
deriving DecidableEq

/-- `new ModelBuilder()`: allocate a fresh configuration object. -/
def newModelBuilder (h : Heap) : Heap × BuilderRef :=
  (h ++ [initialConfigV1], ⟨h.length⟩)

/-- Read a configuration object off the heap. -/
def heapGet (h : Heap) (r : Nat) : Option ConfigV1 := h[r]?

/-- Overwrite a configuration object on the heap. -/
def heapSet (h : Heap) (r : Nat) (c : ConfigV1) : Heap := h.set r c

/-- Mutate the builder's configuration object in place with `f`. -/
def mutateConfig (h : Heap) (b : BuilderRef) (f : ConfigV1 → ConfigV1) : Heap :=
  match heapGet h b.ref with
  | some c => heapSet h b.ref (f c)
  | none => h

/-- The five fluent mutations of `ModelBuilder` (each returns the builder
itself in the source; the reference never changes, so only the heap effect
is modelled). -/
inductive BuilderOp where
  | setResource (s : String)
  | setBaseURL (s : String)
  | addInnerResource (s : String)
  | setInnerResources (l : List String)
  | addOnRequestListener (id : Nat)
deriving DecidableEq

/-- Apply one fluent builder call: each assigns into or pushes onto the
same configuration object. -/
def applyBuilderOp (op : BuilderOp) (h : Heap) (b : BuilderRef) : Heap :=
  match op with
  | .setResource s => mutateConfig h b (fun c => { c with resource := some s })
  | .setBaseURL s => mutateConfig h b (fun c => { c with baseURL := some s })
  | .addInnerResource s =>
    mutateConfig h b (fun c => { c with innerResources := c.innerResources ++ [s] })
  | .setInnerResources l =>
    mutateConfig h b (fun c => { c with innerResources := l })
  | .addOnRequestListener id =>
    mutateConfig h b (fun c => { c with requestListeners := c.requestListeners ++ [id] })

/-- Errors `build()` can throw, named after the source error classes.
`danglingRef` closes the embedding for references not produced by
`newModelBuilder`; it never arises for allocated builders. -/
inductive BuildError where
  | noBaseURLError
  | noResourceError
  | danglingRef
deriving DecidableEq

/-- JavaScript truthiness of an optional string configuration field:
`null` and the empty string are falsy. -/
def truthyStrOpt : Option String → Bool
  | none => false
  | some s => !(s == "")

/-- `ModelBuilder.build()`: throw `NoBaseURLError` if `config.baseURL` is
falsy, then `NoResourceError` if `config.resource` is falsy, otherwise
return a subclass of `Model` whose `config` getter returns the captured
reference to the builder's configuration object.  The body performs no
transport call (the embedding takes no transport and issues no request). -/
def buildV1 (h : Heap) (b : BuilderRef) : Except BuildError BuiltRef :=
  match heapGet h b.ref with
  | none => .error .danglingRef
  | some c =>
    if truthyStrOpt c.baseURL = false then .error .noBaseURLError
    else if truthyStrOpt c.resource = false then .error .noResourceError
    else .ok ⟨b.ref⟩

/-- The configuration a built entity type observes: its `config` getter
returns the object the captured reference points at, as it now stands on
the heap. -/
def observedConfigV1 (h : Heap) (m : BuiltRef) : Option ConfigV1 :=
  heapGet h m.cfgRef

/-! ## v2: the static-configuration `Model` class

Configuration lives in static class properties (`baseURL`, `modelName`,
`conf`); `allMethodsOf` enumerates the subclass's own prototype and static
method names, which the static `apiClient` getter kebab-cases and registers
as nested resources.  The embedding carries those own method-name lists as
data on the class descriptor. -/

/-- A v2 entity class: its static configuration and its own method names
(prototype and static), as `allMethodsOf` in `src/util.js` enumerates
them. -/
structure ModelV2Class where
  baseURL : JSValue
  modelName : String
  protoMethodNames : List String
  staticMethodNames : List String
  conf : JSValue
deriving DecidableEq

/-- `allMethodsOf(klass)`: own prototype method names concatenated with own
static method names. -/
def allMethodsOf (cls : ModelV2Class) : List String :=
  cls.protoMethodNames ++ cls.staticMethodNames

/-- The static `apiClient` getter: build a RestClient on `baseURL`, register
the model resource and, as nested resources, the kebab-cased method names
other than `constructor` (the conversion may diverge, hence the fuel), and
return the collection-level handle `client[this.modelName]`. -/
def apiClientStatic (fuel : Nat) (cls : ModelV2Class) : Option (List PathSeg) :=
  match ((allMethodsOf cls).filter (fun m => m ≠ "constructor")).mapM
      (camelToKebabFuel fuel) with
  | some _ => some [.s cls.modelName]
  | none => none

/-- A v2 entity instance: the constructor stores only `this.id`; the data
bag `this._data` stays `undefined` (`none`) until the first `fillIn`. -/
structure InstanceV2 where
  id : JSValue
  data : Option RawObj
deriving DecidableEq

/-- `Model.newInstance()` / `new this()`: an instance with `undefined` id. -/
def newInstanceV2 : InstanceV2 := ⟨.undefined, none⟩

/-- The instance-level `apiClient` getter: take the static handle and, when
`this.id` is truthy, narrow it with the id; otherwise keep the
collection-level handle. -/
def apiClientInstance (fuel : Nat) (cls : ModelV2Class) (inst : InstanceV2) :
    Option (List PathSeg) :=
  match apiClientStatic fuel cls with
  | some p => some (if truthy inst.id then p ++ [toSeg inst.id] else p)
  | none => none

/-- v2 `fillIn`: initialise `this._data` to an empty object unless it
already is one, then copy every own property of `obj` into `_data`.  The
method body has NO return statement, so its value is `undefined`; the
second component records that returned value. -/
def fillInV2 (inst : InstanceV2) (obj : RawObj) : InstanceV2 × JSValue :=
  let d0 := match inst.data with
    | some d => d
    | none => []
  ({ inst with data := some (rawSetAll d0 obj) }, JSValue.undefined)

/-- v2 instance `retrieve`: GET on the instance handle, hydrate `this`,
and resolve with `fillIn`'s returned value.  The result pair carries the
mutated instance alongside that value. -/
def retrieveV2 (fuel : Nat) (cls : ModelV2Class) (inst : InstanceV2)
    (t : Transport) :
    Except RunErr (InstanceV2 × JSValue) × List Request :=
  match apiClientInstance fuel cls inst with
  | none => (.error .fuelExhausted, [])
  | some path =>
    let req : Request := ⟨.get, path, none⟩
    match t req with
    | .error e => (.error (.transport e), [req])
    | .ok (.obj r) => (.ok (fillInV2 inst r), [req])
    | .ok _ => (.error .badResponse, [req])

/-- v2 instance `update`: PATCH with `data` on the instance handle, hydrate
`this`, and resolve with `fillIn`'s returned value. -/
def updateV2 (fuel : Nat) (cls : ModelV2Class) (inst : InstanceV2)
    (data : RawObj) (t : Transport) :
    Except RunErr (InstanceV2 × JSValue) × List Request :=
  match apiClientInstance fuel cls inst with
  | none => (.error .fuelExhausted, [])
  | some path =>
    let req : Request := ⟨.patch, path, some data⟩
    match t req with
    | .error e => (.error (.transport e), [req])
    | .ok (.obj r) => (.ok (fillInV2 inst r), [req])
    | .ok _ => (.error .badResponse, [req])

/-- v2 instance `delete`: DELETE on the instance handle, resolving with
whatever the transport reports and never touching the data bag. -/
def deleteV2 (fuel : Nat) (cls : ModelV2Class) (inst : InstanceV2)
    (t : Transport) :
    Except RunErr TResponse × List Request :=
  match apiClientInstance fuel cls inst with
  | none => (.error .fuelExhausted, [])
  | some path =>
    let req : Request := ⟨.delete, path, none⟩
    match t req with
    | .error e => (.error (.transport e), [req])
    | .ok resp => (.ok resp, [req])

/-- v2 static `create`: a fresh identity-less instance, POST `data` on its
(collection-level) handle, hydrate it, and resolve with `fillIn`'s returned
value — the hydrated instance itself is discarded. -/
def createV2 (fuel : Nat) (cls : ModelV2Class) (data : RawObj)
    (t : Transport) : Except RunErr JSValue × List Request :=
  let inst := newInstanceV2
  match apiClientInstance fuel cls inst with
  | none => (.error .fuelExhausted, [])
  | some path =>
    let req : Request := ⟨.post, path, some data⟩
    match t req with
    | .error e => (.error (.transport e), [req])
    | .ok (.obj r) => (.ok (fillInV2 inst r).2, [req])
    | .ok _ => (.error .badResponse, [req])

/-- v2 static `list`: one collection-level GET with `args` as query, then
`list.map(obj => this.newInstance().fillIn(obj))` — each element of the
resolved array is `fillIn`'s returned value.  A non-array response has no
`map` method, a `TypeError`. -/
def listV2 (fuel : Nat) (cls : ModelV2Class) (args : RawObj)
    (t : Transport) : Except RunErr (List JSValue) × List Request :=
  match apiClientStatic fuel cls with
  | none => (.error .fuelExhausted, [])
  | some path =>
    let req : Request := ⟨.get, path, some args⟩
    match t req with
    | .error e => (.error (.transport e), [req])
    | .ok (.arr rs) =>
      (.ok (rs.map (fun r => (fillInV2 newInstanceV2 r).2)), [req])
    | .ok _ => (.error .typeError, [req])

/-! ## Concrete sample data for witnesses and counterexamples -/

/-- A concrete v2 entity class in the shape of `example.js`: the `cars`
model with a custom instance method `repair` and static method
`repairAll`. -/
def carsClass : ModelV2Class :=
  ⟨.str "https://myapi.com/api", "cars", ["constructor", "repair"],
   ["repairAll"], .undefined⟩

/-- A freshly built, identity-less v2 instance. -/
def freshCarInstance : InstanceV2 := newInstanceV2

/-- A transport stub that echoes the raw object with id 7 and name x on
GET, POST and PATCH, and reports success on DELETE. -/
def stubObjTransport : Transport := fun req =>
  match req.verb with
  | .delete => .ok (.done (.bool true))
  | _ => .ok (.obj [("id", .num 7), ("name", .str "x")])

/-- A transport stub whose GET resolves with the two-element collection
response of the specification's `list` example. -/
def stubListTransport : Transport := fun req =>
  match req.verb with
  | .get => .ok (.arr [[("id", .num 1), ("name", .str "a")],
                       [("id", .num 2), ("name", .str "b")]])
  | _ => .ok (.done .undefined)

/-- Heap after `new ModelBuilder()` in the shape of `example.js`. -/
def builderHeap0 : Heap := (newModelBuilder []).1

/-- The builder allocated on `builderHeap0`. -/
def theBuilder : BuilderRef := (newModelBuilder []).2

/-- Heap after `.setBaseURL("http://mysite.com/my-api")`. -/
def builderHeap1 : Heap :=
  applyBuilderOp (.setBaseURL "http://mysite.com/my-api") builderHeap0 theBuilder

/-- Heap after `.setResource("nice-models")`, ready for `build()`. -/
def builderHeap2 : Heap :=
  applyBuilderOp (.setResource "nice-models") builderHeap1 theBuilder

/-- Heap after a `setResource` issued AFTER `build()` succeeded. -/
def builderHeap3 : Heap :=
  applyBuilderOp (.setResource "other") builderHeap2 theBuilder

/-- A raw payload carries only data values (JSON-like structures per
specification section 6): no function values. -/
def noFnB (r : RawObj) : Bool :=
  r.all (fun kv => !(isFn kv.2))

/-- Whether the v1 `fillIn` guard skips assignments to key `k` in state
`p`: `this[prop]` is a truthy function. -/
def skipKeyB (p : RawObj) (k : String) : Bool :=
  truthy (propLookupV1 p k) && isFn (propLookupV1 p k)

/-- The date coercion applied to every property of `obj` (the cumulative
mutation of `obj` across the v1 `fillIn` loop). -/
def coerceObj (r : RawObj) : RawObj :=
  r.map (fun kv => (kv.1, coerceDate kv.2))

/-- The subsequence of (coerced) properties the v1 `fillIn` loop actually
writes from state `p`. -/
def writesFrom (p : RawObj) (r : RawObj) : RawObj :=
  (coerceObj r).filter (fun kv => !skipKeyB p kv.1)

/-! ## Association-list lemmas for the hydration proofs -/

theorem rawGet_nil (k : String) : rawGet [] k = none := rfl

theorem rawGet_cons (a : String) (b : JSValue) (rest : RawObj) (k : String) :
    rawGet ((a, b) :: rest) k = if a = k then some b else rawGet rest k := rfl

theorem rawSet_nil (k : String) (v : JSValue) : rawSet [] k v = [(k, v)] := rfl

theorem rawSet_cons (a : String) (b : JSValue) (rest : RawObj) (k : String)
    (v : JSValue) :
    rawSet ((a, b) :: rest) k v =
      if a = k then (k, v) :: rest else (a, b) :: rawSet rest k v := rfl

theorem rawGet_rawSet_self (d : RawObj) (k : String) (v : JSValue) :
    rawGet (rawSet d k v) k = some v := by
  induction d with
  | nil => simp [rawGet_nil, rawSet_nil, rawGet_cons]
  | cons kv rest ih =>
    obtain ⟨a, b⟩ := kv
    by_cases h : a = k <;> simp [rawSet_cons, rawGet_cons, h, ih]

theorem rawGet_rawSet_ne (d : RawObj) {k k' : String} (v : JSValue)
    (h : k' ≠ k) : rawGet (rawSet d k v) k' = rawGet d k' := by
  have h' : ¬(k = k') := fun hh => h hh.symm
  induction d with
  | nil => simp [rawGet_nil, rawSet_nil, rawGet_cons, h']
  | cons kv rest ih =>
    obtain ⟨a, b⟩ := kv
    by_cases h1 : a = k
    · subst h1
      simp [rawSet_cons, rawGet_cons, h']
    · by_cases h2 : a = k' <;> simp [rawSet_cons, rawGet_cons, h1, h2, ih, h, h']

theorem rawSet_rawSet_same (d : RawObj) (k : String) (w v : JSValue) :
    rawSet (rawSet d k w) k v = rawSet d k v := by
  induction d with
  | nil => simp [rawSet_nil, rawSet_cons]
  | cons kv rest ih =>
    obtain ⟨a, b⟩ := kv
    by_cases h : a = k <;> simp [rawSet_cons, h, ih]

theorem rawSet_comm_of_isSome (d : RawObj) {k k' : String}
    (v v' : JSValue) (hne : k ≠ k') (hk : (rawGet d k).isSome) :
    rawSet (rawSet d k v) k' v' = rawSet (rawSet d k' v') k v := by
  have hne' : ¬(k' = k) := fun hh => hne hh.symm
  induction d with
  | nil => simp [rawGet_nil] at hk
  | cons kv rest ih =>
    obtain ⟨a, b⟩ := kv
    by_cases h1 : a = k
    · subst h1
      simp [rawSet_cons, hne, hne']
    · by_cases h2 : a = k'
      · subst h2
        simp [rawSet_cons, hne, hne', h1]
      · have hk' : (rawGet rest k).isSome := by
          simpa [rawGet_cons, h1] using hk
        simp [rawSet_cons, h1, h2, ih hk']

theorem isSome_rawGet_rawSet (d : RawObj) {k' : String} (k : String)
    (v : JSValue) (h : (rawGet d k').isSome) :
    (rawGet (rawSet d k v) k').isSome := by
  by_cases hk : k' = k
  · subst hk; simp [rawGet_rawSet_self]
  · rwa [rawGet_rawSet_ne d v hk]

theorem isSome_rawGet_rawSetAll (d : RawObj) (r : RawObj) {k' : String}
    (h : (rawGet d k').isSome) : (rawGet (rawSetAll d r) k').isSome := by
  induction r generalizing d with
  | nil => simpa [rawSetAll]
  | cons kv rest ih =>
    simpa [rawSetAll] using ih _ (isSome_rawGet_rawSet d kv.1 kv.2 h)

theorem rawGet_rawSetAll_not_mem (d : RawObj) (r : RawObj) {k : String}
    (h : k ∉ r.map Prod.fst) : rawGet (rawSetAll d r) k = rawGet d k := by
  induction r generalizing d with
  | nil => simp [rawSetAll]
  | cons kv rest ih =>
    simp only [List.map_cons, List.mem_cons, not_or] at h
    have h1 : ¬(kv.1 = k) := fun hh => h.1 hh.symm
    rw [rawSetAll, ih _ h.2, rawGet_rawSet_ne d kv.2 (fun hh => h1 hh.symm)]

theorem rawSet_eq_of_rawGet (d : RawObj) {k : String} {v : JSValue}
    (h : rawGet d k = some v) : rawSet d k v = d := by
  induction d with
  | nil => simp [rawGet_nil] at h
  | cons kv rest ih =>
    obtain ⟨a, b⟩ := kv
    by_cases h1 : a = k
    · subst h1
      rw [rawGet_cons, if_pos rfl] at h
      have hb : b = v := by injection h
      simp [rawSet_cons, hb]
    · rw [rawGet_cons, if_neg h1] at h
      simp [rawSet_cons, h1, ih h]

theorem rawSetAll_rawSet_absorb (r : RawObj) (d : RawObj) {k : String}
    (v : JSValue) (hmem : k ∈ r.map Prod.fst) (hk : (rawGet d k).isSome) :
    rawSetAll (rawSet d k v) r = rawSetAll d r := by
  induction r generalizing d with
  | nil => simp at hmem
  | cons kv rest ih =>
    by_cases h1 : kv.1 = k
    · subst h1
      rw [rawSetAll, rawSet_rawSet_same, rawSetAll]
    · have hmem' : k ∈ rest.map Prod.fst := by
        rcases (by simpa using hmem : k = kv.1 ∨ k ∈ rest.map Prod.fst) with hc | hc
        · exact absurd hc.symm h1
        · exact hc
      rw [rawSetAll, rawSet_comm_of_isSome d v kv.2 (fun hh => h1 hh.symm) hk,
        ih _ hmem' (isSome_rawGet_rawSet d kv.1 kv.2 hk), rawSetAll]

theorem rawSetAll_idem (r : RawObj) (d : RawObj) :
    rawSetAll (rawSetAll d r) r = rawSetAll d r := by
  induction r generalizing d with
  | nil => simp [rawSetAll]
  | cons kv rest ih =>
    rw [rawSetAll, rawSetAll]
    by_cases hmem : kv.1 ∈ rest.map Prod.fst
    · have hsome : (rawGet (rawSetAll (rawSet d kv.1 kv.2) rest) kv.1).isSome :=
        isSome_rawGet_rawSetAll _ rest
          (by simp [rawGet_rawSet_self])
      rw [rawSetAll_rawSet_absorb rest _ kv.2 hmem hsome, ih]
    · have hget : rawGet (rawSetAll (rawSet d kv.1 kv.2) rest) kv.1 = some kv.2 := by
        rw [rawGet_rawSetAll_not_mem _ rest hmem, rawGet_rawSet_self]
      rw [rawSet_eq_of_rawGet _ hget, ih]

theorem rawSetAll_rawSet_of_not_mem (s : RawObj) (x : RawObj) {k : String}
    (v : JSValue) (hmem : k ∉ s.map Prod.fst) (hk : (rawGet x k).isSome) :
    rawSetAll (rawSet x k v) s = rawSet (rawSetAll x s) k v := by
  induction s generalizing x with
  | nil => simp [rawSetAll]
  | cons kv rest ih =>
    simp only [List.map_cons, List.mem_cons, not_or] at hmem
    rw [rawSetAll, rawSet_comm_of_isSome x v kv.2 hmem.1 hk,
      ih _ hmem.2 (isSome_rawGet_rawSet x kv.1 kv.2 hk), rawSetAll]

/-! ## Lemmas about the v1 hydration loop -/

theorem isFn_coerceDate : ∀ v, isFn (coerceDate v) = isFn v
  | .undefined | .null | .bool _ | .num _ | .str _ | .date _ | .fn _ | .handle _ => rfl
  | .strObj _ b _ => by cases b <;> rfl

theorem coerceDate_idem : ∀ v, coerceDate (coerceDate v) = coerceDate v
  | .undefined | .null | .bool _ | .num _ | .str _ | .date _ | .fn _ | .handle _ => rfl
  | .strObj _ b _ => by cases b <;> rfl

theorem coerceObj_idem (r : RawObj) : coerceObj (coerceObj r) = coerceObj r := by
  induction r with
  | nil => rfl
  | cons kv rest ih =>
    show (kv.1, coerceDate (coerceDate kv.2)) :: coerceObj (coerceObj rest) =
      (kv.1, coerceDate kv.2) :: coerceObj rest
    rw [coerceDate_idem, ih]

theorem noFnB_coerceObj {r : RawObj} (h : noFnB r = true) :
    noFnB (coerceObj r) = true := by
  simp only [noFnB, List.all_eq_true] at *
  intro kv hkv
  simp only [coerceObj, List.mem_map] at hkv
  obtain ⟨kv0, hkv0, rfl⟩ := hkv
  simpa [isFn_coerceDate] using h kv0 hkv0

theorem propLookupV1_rawSet_self (p : RawObj) (k : String) (v : JSValue) :
    propLookupV1 (rawSet p k v) k = v := by
  simp [propLookupV1, rawGet_rawSet_self]

theorem propLookupV1_rawSet_ne (p : RawObj) {k k' : String} (v : JSValue)
    (h : k' ≠ k) : propLookupV1 (rawSet p k v) k' = propLookupV1 p k' := by
  simp [propLookupV1, rawGet_rawSet_ne p v h]

theorem skipKeyB_rawSet_class (p : RawObj) {k : String} {v : JSValue}
    (h : (truthy v && isFn v) = skipKeyB p k) (k' : String) :
    skipKeyB (rawSet p k v) k' = skipKeyB p k' := by
  by_cases hk : k' = k
  · subst hk
    simp only [skipKeyB, propLookupV1_rawSet_self]
    exact h
  · simp only [skipKeyB, propLookupV1_rawSet_ne p v hk]

theorem fillStepV1_snd (p : RawObj) (kv : String × JSValue) :
    (fillStepV1 p kv).2 = (kv.1, coerceDate kv.2) := rfl

theorem fillStepV1_fst (p : RawObj) (kv : String × JSValue) :
    (fillStepV1 p kv).1 =
      if skipKeyB p kv.1 = true then p else rawSet p kv.1 (coerceDate kv.2) := by
  by_cases h1 : truthy (propLookupV1 p kv.1) = true <;>
    by_cases h2 : isFn (propLookupV1 p kv.1) = true <;>
      simp [fillStepV1, skipKeyB, h1, h2]

theorem fillLoopV1_snd (r : RawObj) (p : RawObj) :
    (fillLoopV1 p r).2 = coerceObj r := by
  induction r generalizing p with
  | nil => rfl
  | cons kv rest ih =>
    show (fillStepV1 p kv).2 :: (fillLoopV1 (fillStepV1 p kv).1 rest).2 =
      coerceObj (kv :: rest)
    rw [fillStepV1_snd, ih]
    rfl

theorem writesFrom_cons_skip (p : RawObj) (kv : String × JSValue) (rest : RawObj)
    (h : skipKeyB p kv.1 = true) :
    writesFrom p (kv :: rest) = writesFrom p rest := by
  simp [writesFrom, coerceObj, h]

theorem writesFrom_cons_write (p : RawObj) (kv : String × JSValue) (rest : RawObj)
    (h : skipKeyB p kv.1 = false) :
    writesFrom p (kv :: rest) = (kv.1, coerceDate kv.2) :: writesFrom p rest := by
  simp [writesFrom, coerceObj, h]

theorem fillLoopV1_fst (r : RawObj) (p : RawObj) (h : noFnB r = true) :
    (fillLoopV1 p r).1 = rawSetAll p (writesFrom p r) := by
  induction r generalizing p with
  | nil => rfl
  | cons kv rest ih =>
    have hsplit : isFn kv.2 = false ∧ noFnB rest = true := by
      simpa [noFnB] using (by simpa [noFnB] using h : _)
    have hkv : isFn kv.2 = false := hsplit.1
    have hrest : noFnB rest = true := hsplit.2
    show (fillLoopV1 (fillStepV1 p kv).1 rest).1 = _
    rw [fillStepV1_fst]
    by_cases hskip : skipKeyB p kv.1 = true
    · rw [if_pos hskip, ih _ hrest, writesFrom_cons_skip p kv rest hskip]
    · have hskip' : skipKeyB p kv.1 = false := by
        cases hc : skipKeyB p kv.1
        · rfl
        · exact absurd hc hskip
      rw [if_neg hskip, ih _ hrest,
        writesFrom_cons_write p kv rest hskip']
      have hclass : (truthy (coerceDate kv.2) && isFn (coerceDate kv.2)) =
          skipKeyB p kv.1 := by
        rw [isFn_coerceDate, hkv, hskip']
        simp
      have hW : writesFrom (rawSet p kv.1 (coerceDate kv.2)) rest =
          writesFrom p rest := by
        simp only [writesFrom]
        exact List.filter_congr
          (fun x _ => by rw [skipKeyB_rawSet_class p hclass])
      rw [hW, rawSetAll]

theorem writesFrom_spec (p r : RawObj) (h : noFnB r = true) :
    ∀ kv ∈ writesFrom p r, isFn kv.2 = false ∧ skipKeyB p kv.1 = false := by
  intro kv hkv
  simp only [writesFrom, List.mem_filter] at hkv
  obtain ⟨hmem, hfilt⟩ := hkv
  simp only [coerceObj, List.mem_map] at hmem
  obtain ⟨kv0, hkv0, rfl⟩ := hmem
  constructor
  · rw [isFn_coerceDate]
    simp only [noFnB, List.all_eq_true] at h
    simpa using h kv0 hkv0
  · simpa using hfilt

theorem skipKeyB_rawSetAll_writes (s : RawObj) (p : RawObj)
    (h : ∀ kv ∈ s, isFn kv.2 = false ∧ skipKeyB p kv.1 = false) (k' : String) :
    skipKeyB (rawSetAll p s) k' = skipKeyB p k' := by
  induction s generalizing p with
  | nil => rfl
  | cons kv rest ih =>
    have hhead := h kv (List.mem_cons_self _ _)
    have hstep : ∀ k0, skipKeyB (rawSet p kv.1 kv.2) k0 = skipKeyB p k0 := by
      intro k0
      apply skipKeyB_rawSet_class
      rw [hhead.1, hhead.2]
      simp
    have htail : ∀ kv' ∈ rest, isFn kv'.2 = false ∧
        skipKeyB (rawSet p kv.1 kv.2) kv'.1 = false := by
      intro kv' hkv'
      refine ⟨(h kv' (List.mem_cons_of_mem _ hkv')).1, ?_⟩
      rw [hstep kv'.1]
      exact (h kv' (List.mem_cons_of_mem _ hkv')).2
    rw [rawSetAll, ih _ htail, hstep]

theorem rawGet_rawSetAll_mem_isFn (s : RawObj) (p : RawObj) {k : String}
    (hall : ∀ kv ∈ s, isFn kv.2 = false) (hmem : k ∈ s.map Prod.fst) :
    ∃ v, rawGet (rawSetAll p s) k = some v ∧ isFn v = false := by
  induction s generalizing p with
  | nil => simp at hmem
  | cons kv rest ih =>
    by_cases hmem' : k ∈ rest.map Prod.fst
    · exact ih _ (fun kv' h' => hall kv' (List.mem_cons_of_mem _ h')) hmem'
    · have hk : k = kv.1 := by
        rcases (by simpa using hmem : k = kv.1 ∨ k ∈ rest.map Prod.fst) with hc | hc
        · exact hc
        · exact absurd hc hmem'
      subst hk
      refine ⟨kv.2, ?_, hall kv (List.mem_cons_self _ _)⟩
      rw [rawSetAll, rawGet_rawSetAll_not_mem _ _ hmem', rawGet_rawSet_self]

theorem filter_rawSet_ne (x : RawObj) (k : String) (v : JSValue) :
    (rawSet x k v).filter (fun kv => kv.1 ≠ k) =
      x.filter (fun kv => kv.1 ≠ k) := by
  induction x with
  | nil => simp [rawSet_nil]
  | cons kv rest ih =>
    obtain ⟨a, b⟩ := kv
    by_cases h : a = k
    · subst h
      simp [rawSet_cons]
    · rw [rawSet_cons, if_neg h, List.filter_cons, List.filter_cons, ih]

theorem rawGetD_rawSet_self (p : RawObj) (k : String) (v : JSValue) :
    rawGetD (rawSet p k v) k = v := by
  simp [rawGetD, rawGet_rawSet_self]

theorem rawGetD_rawSet_ne (p : RawObj) {k k' : String} (v : JSValue)
    (h : k' ≠ k) : rawGetD (rawSet p k v) k' = rawGetD p k' := by
  simp [rawGetD, rawGet_rawSet_ne p v h]

/-- Idempotence of v1 hydration on the data bag: if hydrating once from a
function-free raw object succeeds, hydrating the result again with the
(mutated) raw object succeeds and leaves the data bag unchanged. -/
theorem fillInV1_idem (i : InstanceV1) (r : RawObj) (hno : noFnB r = true)
    (i1 : InstanceV1) (r1 : RawObj) (h : fillInV1 i r = .ok (i1, r1)) :
    dataBagOfResultV1 (fillInV1 i1 r1) = some (dataBagV1 i1) := by
  have hr1 : (fillLoopV1 i.props r).2 = coerceObj r := fillLoopV1_snd r i.props
  have hp1 : (fillLoopV1 i.props r).1 = rawSetAll i.props (writesFrom i.props r) :=
    fillLoopV1_fst r i.props hno
  have hno1 : noFnB ((fillLoopV1 i.props r).2) = true := by
    rw [hr1]; exact noFnB_coerceObj hno
  have hsk : ∀ k', skipKeyB ((fillLoopV1 i.props r).1) k' = skipKeyB i.props k' := by
    intro k'
    rw [hp1]
    exact skipKeyB_rawSetAll_writes _ _ (writesFrom_spec i.props r hno) k'
  have hW2 : writesFrom ((fillLoopV1 i.props r).1) ((fillLoopV1 i.props r).2) =
      writesFrom i.props r := by
    rw [hr1]
    simp only [writesFrom]
    rw [coerceObj_idem]
    exact List.filter_congr (fun x _ => by rw [hsk x.1])
  simp only [fillInV1] at h
  split at h
  case isFalse hid =>
    -- no rebind in the first pass: the instance is the loop result
    have hpair : ({ props := (fillLoopV1 i.props r).1 } : InstanceV1) = i1 ∧
        (fillLoopV1 i.props r).2 = r1 := by
      simpa [Prod.ext_iff] using h
    have hi1 : i1.props = (fillLoopV1 i.props r).1 := by
      rw [← hpair.1]
    have hr1' : r1 = (fillLoopV1 i.props r).2 := hpair.2.symm
    have hpass2 : (fillLoopV1 i1.props r1).1 = (fillLoopV1 i.props r).1 := by
      rw [hi1, hr1']
      rw [fillLoopV1_fst _ _ hno1, hW2, hp1, rawSetAll_idem]
    have hid2 : ¬truthy (rawGetD (fillLoopV1 i1.props r1).1 "id") = true := by
      rw [hpass2]; exact hid
    simp only [fillInV1]
    rw [if_neg hid2]
    simp only [dataBagOfResultV1, Option.some.injEq, dataBagV1]
    rw [hpass2, hi1]
  case isTrue hid =>
    split at h
    case h_1 pth hres =>
      -- the `$resource` handle existed and was narrowed with the id
      have hress : rawGet ((fillLoopV1 i.props r).1) "$resource" =
          some (.handle pth) := by
        cases hg : rawGet ((fillLoopV1 i.props r).1) "$resource" with
        | none => simp [rawGetD, hg] at hres
        | some v =>
          simp only [rawGetD, hg] at hres
          exact congrArg some hres
      have hnotmem : "$resource" ∉ (writesFrom i.props r).map Prod.fst := by
        intro hmem
        obtain ⟨v, hv, hfn⟩ := rawGet_rawSetAll_mem_isFn (writesFrom i.props r)
          i.props (fun kv hkv => (writesFrom_spec i.props r hno kv hkv).1) hmem
        rw [← hp1, hress] at hv
        injection hv with hv'
        rw [← hv'] at hfn
        simp [isFn] at hfn
      -- name the narrowed handle value and the second-pass instance
      have hpair : InstanceV1.mk (rawSet ((fillLoopV1 i.props r).1) "$resource"
            (JSValue.handle (pth ++ [toSeg (rawGetD ((fillLoopV1 i.props r).1) "id")]))) = i1 ∧
          (fillLoopV1 i.props r).2 = r1 := by
        simpa [Prod.ext_iff] using h
      have hi1 : i1.props = rawSet ((fillLoopV1 i.props r).1) "$resource"
          (JSValue.handle (pth ++ [toSeg (rawGetD ((fillLoopV1 i.props r).1) "id")])) := by
        rw [← hpair.1]
      have hr1' : r1 = (fillLoopV1 i.props r).2 := hpair.2.symm
      have hskq : ∀ k', skipKeyB i1.props k' =
          skipKeyB ((fillLoopV1 i.props r).1) k' := by
        intro k'
        rw [hi1]
        apply skipKeyB_rawSet_class
        simp only [skipKeyB, truthy, isFn, propLookupV1, hress, Bool.and_self]
      have hW3 : writesFrom i1.props r1 = writesFrom i.props r := by
        rw [hr1']
        simp only [writesFrom]
        rw [hr1, coerceObj_idem]
        exact List.filter_congr (fun x _ => by rw [hskq x.1, hsk x.1])
      have hpass2 : (fillLoopV1 i1.props r1).1 = i1.props := by
        rw [fillLoopV1_fst _ _ (by rw [hr1']; exact hno1), hW3, hi1,
          rawSetAll_rawSet_of_not_mem _ _ _ hnotmem
            (by rw [hress]; rfl),
          hp1, rawSetAll_idem, ← hp1]
      have hid2 : truthy (rawGetD (fillLoopV1 i1.props r1).1 "id") = true := by
        rw [hpass2, hi1, rawGetD_rawSet_ne _ _ (by decide)]
        exact hid
      have hres2 : rawGetD (fillLoopV1 i1.props r1).1 "$resource" =
          .handle (pth ++ [toSeg (rawGetD ((fillLoopV1 i.props r).1) "id")]) := by
        rw [hpass2, hi1, rawGetD_rawSet_self]
      simp only [fillInV1]
      rw [if_pos hid2, hres2]
      simp only [dataBagOfResultV1, Option.some.injEq, dataBagV1]
      rw [hpass2, filter_rawSet_ne, hi1, filter_rawSet_ne]
    all_goals cases h

/-! ## Divergence of the case converter -/

theorem kebabLoop_hyphens : ∀ fuel k : Nat,
    kebabLoop fuel (k + 1) ('a' :: List.replicate (k + 1) '-') = none := by
  intro fuel
  induction fuel with
  | zero => intro k; rfl
  | succ f ih =>
    intro k
    have hlen : k + 1 < ('a' :: List.replicate (k + 1) '-').length := by simp
    rw [kebabLoop, dif_pos hlen]
    simp only [List.getElem_cons_succ, List.getElem_replicate]
    rw [if_pos ⟨by decide, Nat.succ_pos k⟩]
    have hlower : ('-').toLower = '-' := by decide
    rw [hlower]
    have hrep : replaceFirstChar ('a' :: List.replicate (k + 1) '-') '-' ['-', '-'] =
        'a' :: List.replicate (k + 2) '-' := by
      simp [replaceFirstChar, List.replicate_succ]
    rw [hrep]
    exact ih (k + 1)

theorem camelToKebab_diverges_input (fuel : Nat) :
    camelToKebabFuel fuel "a-" = none := by
  have h0 : kebabLoop fuel 0 ("a-".data) = none := by
    cases fuel with
    | zero => rfl
    | succ f =>
      show kebabLoop (f + 1) 0 ['a', '-'] = none
      rw [kebabLoop, dif_pos (by decide)]
      rw [if_neg (by decide)]
      show kebabLoop f (0 + 1) ('a' :: List.replicate (0 + 1) '-') = none
      exact kebabLoop_hyphens f 0
  simp only [camelToKebabFuel, h0]

/-! ## Claim theorems -/

/-- C1 counterexample: on a freshly built identity-less v2 instance,
`retrieve()` does NOT fail with a `NoIdentityError` — it resolves
successfully — and it DOES issue a network call (one GET against the
collection path `cars`), refuting the claim on this concrete input. -/
theorem C1_identityless_retrieve_counterexample :
    (retrieveV2 50 carsClass freshCarInstance stubObjTransport).1 =
      .ok (⟨.undefined, some [("id", .num 7), ("name", .str "x")]⟩, .undefined) ∧
    (retrieveV2 50 carsClass freshCarInstance stubObjTransport).2 =
      [⟨.get, [.s "cars"], none⟩] := by decide

/-- C1 (amended): no `NoIdentityError` exists in the code.  For every
identity-less v2 instance, `retrieve`, `update` and `delete` each issue
exactly one transport request against the collection-level path (the
resource name alone) and resolve with the transport's answer instead of
failing. -/
theorem C1_identityless_ops_target_collection
    (fuel : Nat) (cls : ModelV2Class) (inst : InstanceV2) (t : Transport)
    (r d : RawObj) (path : List PathSeg)
    (hid : truthy inst.id = false)
    (hcli : apiClientStatic fuel cls = some path) :
    path = [.s cls.modelName] ∧
    (t ⟨.get, path, none⟩ = .ok (.obj r) →
      retrieveV2 fuel cls inst t = (.ok (fillInV2 inst r), [⟨.get, path, none⟩])) ∧
    (t ⟨.patch, path, some d⟩ = .ok (.obj r) →
      updateV2 fuel cls inst d t =
        (.ok (fillInV2 inst r), [⟨.patch, path, some d⟩])) ∧
    (∀ resp, t ⟨.delete, path, none⟩ = .ok resp →
      deleteV2 fuel cls inst t = (.ok resp, [⟨.delete, path, none⟩])) := by
  have hpath : path = [.s cls.modelName] := by
    revert hcli
    unfold apiClientStatic
    cases hm : ((allMethodsOf cls).filter (fun m => m ≠ "constructor")).mapM
        (camelToKebabFuel fuel) with
    | none => intro hcli; cases hcli
    | some l =>
      intro hcli
      injection hcli with h'
      exact h'.symm
  have hinst : apiClientInstance fuel cls inst = some path := by
    simp [apiClientInstance, hcli, hid]
  refine ⟨hpath, ?_, ?_, ?_⟩
  · intro ht
    unfold retrieveV2
    rw [hinst]
    dsimp only
    rw [ht]
  · intro ht
    unfold updateV2
    rw [hinst]
    dsimp only
    rw [ht]
  · intro resp ht
    unfold deleteV2
    rw [hinst]
    dsimp only
    rw [ht]

/-- C1 witness: the amended theorem applied to the concrete `cars` class,
a fresh identity-less instance, and the echoing transport stub. -/
theorem C1_identityless_ops_witness :
    retrieveV2 50 carsClass freshCarInstance stubObjTransport =
      (.ok (fillInV2 freshCarInstance [("id", .num 7), ("name", .str "x")]),
       [⟨.get, [.s "cars"], none⟩]) :=
  (C1_identityless_ops_target_collection 50 carsClass freshCarInstance
    stubObjTransport [("id", .num 7), ("name", .str "x")] [("name", .str "y")]
    [.s "cars"] (by decide) (by decide)).2.1 (by decide)

/-- C2: the v2 `fillIn` body has no return statement, so it evaluates to
`undefined` rather than the instance; consequently `create(data)` resolves
to `undefined` instead of the hydrated instance (contradicting the method's
own documentation, which promises the instance). -/
theorem C2_fillInV2_returns_undefined :
    (fillInV2 newInstanceV2 [("name", .str "x")]).2 = JSValue.undefined ∧
    createV2 50 carsClass [("name", .str "x")] stubObjTransport =
      (.ok JSValue.undefined, [⟨.post, [.s "cars"], some [("name", .str "x")]⟩]) := by
  decide

/-- C3: `create({name:"x"})` on a built v1 type never reaches the POST: the
`Model` constructor's first statement evaluates the unresolved identifier
`getAPIHost`, so the call rejects with a `ReferenceError` and issues no
request, instead of resolving to an instance with identity 7. -/
theorem C3_createV1_throws_reference_error :
    createV1 [("name", .str "x")] stubObjTransport =
      (.error .referenceError, []) := by decide

/-- C4 counterexample: `build()` captures a reference, not a snapshot.
Building with resource `nice-models` succeeds, and a later
`setResource("other")` on the same builder is observed by the already-built
type, whose configuration now reports resource `other`. -/
theorem C4_snapshot_counterexample :
    buildV1 builderHeap2 theBuilder = .ok ⟨0⟩ ∧
    (heapGet builderHeap2 theBuilder.ref).map ConfigV1.resource =
      some (some "nice-models") ∧
    (observedConfigV1 builderHeap3 ⟨0⟩).map ConfigV1.resource =
      some (some "other") := by decide

/-- C4 (amended): the configuration observed by a built entity type is NOT
a build-time snapshot; it aliases the builder's configuration object, so
after any later builder mutation the built type observes exactly the
builder's current configuration. -/
theorem C4_built_type_observes_builder_mutation
    (h : Heap) (b : BuilderRef) (m : BuiltRef) (op : BuilderOp)
    (hb : buildV1 h b = .ok m) :
    observedConfigV1 (applyBuilderOp op h b) m =
      heapGet (applyBuilderOp op h b) b.ref := by
  have hm : m.cfgRef = b.ref := by
    revert hb
    unfold buildV1
    cases hg : heapGet h b.ref with
    | none => intro hb; cases hb
    | some c =>
      intro hb
      dsimp only at hb
      by_cases h1 : truthyStrOpt c.baseURL = false
      · rw [if_pos h1] at hb; cases hb
      · rw [if_neg h1] at hb
        by_cases h2 : truthyStrOpt c.resource = false
        · rw [if_pos h2] at hb; cases hb
        · rw [if_neg h2] at hb
          injection hb with hb'
          rw [← hb']
  unfold observedConfigV1
  rw [hm]

/-- C4 witness: the amended theorem at the concrete `example.js` builder,
mutated with a further `setBaseURL` after a successful build. -/
theorem C4_aliasing_witness :
    observedConfigV1 (applyBuilderOp (.setBaseURL "http://other.example")
        builderHeap2 theBuilder) ⟨0⟩ =
      heapGet (applyBuilderOp (.setBaseURL "http://other.example")
        builderHeap2 theBuilder) theBuilder.ref :=
  C4_built_type_observes_builder_mutation builderHeap2 theBuilder ⟨0⟩
    (.setBaseURL "http://other.example") (by decide)

/-- C5 counterexample: with both base URL and resource configured,
`build()` does succeed — but the entity type it returns is NOT usable:
constructing an instance of it, as `example.js` does with
`new MyNiceModel(1)`, faults with a `ReferenceError` (unbound
`getAPIHost`), so the claim's "succeeds returning a usable entity type"
conjunct fails on this concrete input. -/
theorem C5_usable_type_counterexample :
    buildV1 builderHeap2 theBuilder = .ok ⟨0⟩ ∧
    constructorV1 (.num 1) = .error .referenceError := by decide

/-- C5 (amended): `build()` fails with `NoBaseURLError` whenever the
configured base URL is falsy (never set, or empty), fails with
`NoResourceError` when the base URL is truthy but the resource name is
falsy, and returns an entity type when both are truthy — but that type is
not usable: its inherited constructor faults with a `ReferenceError` for
every argument, so no instance and no CRUD operation of it can ever run.
The embedding of `build` takes no transport and issues no request,
mirroring the source body, which performs no network call. -/
theorem C5_build_outcomes_unusable_type (h : Heap) (b : BuilderRef)
    (c : ConfigV1) (hg : heapGet h b.ref = some c) :
    (truthyStrOpt c.baseURL = false → buildV1 h b = .error .noBaseURLError) ∧
    (truthyStrOpt c.baseURL = true → truthyStrOpt c.resource = false →
      buildV1 h b = .error .noResourceError) ∧
    (truthyStrOpt c.baseURL = true → truthyStrOpt c.resource = true →
      buildV1 h b = .ok ⟨b.ref⟩ ∧
      ∀ arg : JSValue, constructorV1 arg = .error .referenceError) := by
  unfold buildV1
  rw [hg]
  dsimp only
  refine ⟨fun h1 => ?_, fun h1 h2 => ?_, fun h1 h2 => ⟨?_, fun _ => rfl⟩⟩
  · rw [if_pos h1]
  · rw [if_neg (by rw [h1]; decide), if_pos h2]
  · rw [if_neg (by rw [h1]; decide), if_neg (by rw [h2]; decide)]

/-- C5 witness: the amended theorem at the concrete builder of
`example.js`: no base URL, base URL without resource, both set (build
succeeds and the built type's constructor faults). -/
theorem C5_build_outcomes_witness :
    buildV1 builderHeap0 theBuilder = .error .noBaseURLError ∧
    buildV1 builderHeap1 theBuilder = .error .noResourceError ∧
    buildV1 builderHeap2 theBuilder = .ok ⟨theBuilder.ref⟩ ∧
    constructorV1 (.num 1) = .error .referenceError := by
  refine ⟨?_, ?_, ?_, ?_⟩
  · exact (C5_build_outcomes_unusable_type builderHeap0 theBuilder
      initialConfigV1 (by decide)).1 (by decide)
  · exact (C5_build_outcomes_unusable_type builderHeap1 theBuilder
      ⟨none, some "http://mysite.com/my-api", [], []⟩ (by decide)).2.1
      (by decide) (by decide)
  · exact ((C5_build_outcomes_unusable_type builderHeap2 theBuilder
      ⟨some "nice-models", some "http://mysite.com/my-api", [], []⟩
      (by decide)).2.2 (by decide) (by decide)).1
  · exact ((C5_build_outcomes_unusable_type builderHeap2 theBuilder
      ⟨some "nice-models", some "http://mysite.com/my-api", [], []⟩
      (by decide)).2.2 (by decide) (by decide)).2 (.num 1)

/-- C6: on the collection response with ids 1 and 2, the v2 `list` resolves
to a two-element array whose elements are both `undefined` — NOT hydrated
instances — because `fillIn` returns no value; and the v1 `list` rejects
with a `ReferenceError` (broken constructor) before any GET is issued. -/
theorem C6_list_elements_not_instances :
    listV2 50 carsClass [] stubListTransport =
      (.ok [JSValue.undefined, JSValue.undefined], [⟨.get, [.s "cars"], some []⟩]) ∧
    listV1 [] stubListTransport = (.error .referenceError, []) := by decide

/-- C7: hydration is idempotent on the data bag, in both generations.  For
v2, filling in the same raw object twice leaves `_data` unchanged.  For v1,
if a first `fillIn` from a function-free raw object succeeds, a second
`fillIn` of its result with the (mutated) raw object succeeds and leaves
the data bag structurally unchanged. -/
theorem C7_fillIn_idempotent :
    (∀ (inst : InstanceV2) (r : RawObj),
      ((fillInV2 (fillInV2 inst r).1 r).1).data = ((fillInV2 inst r).1).data) ∧
    (∀ (i : InstanceV1) (r : RawObj), noFnB r = true →
      ∀ (i1 : InstanceV1) (r1 : RawObj), fillInV1 i r = .ok (i1, r1) →
        dataBagOfResultV1 (fillInV1 i1 r1) = some (dataBagV1 i1)) := by
  constructor
  · intro inst r
    cases hd : inst.data <;> simp [fillInV2, hd, rawSetAll_idem]
  · intro i r hno i1 r1 h
    exact fillInV1_idem i r hno i1 r1 h

/-- C7 witness: the v1 idempotence applied to a concrete instance bound to
the `cars` handle, hydrated twice from the raw object with id 7. -/
theorem C7_fillIn_idempotent_witness :
    dataBagOfResultV1 (fillInV1
        ⟨[("$resource", .handle [.s "cars", .n 7]), ("id", .num 7),
          ("name", .str "x")]⟩
        [("id", .num 7), ("name", .str "x")]) =
      some (dataBagV1
        ⟨[("$resource", .handle [.s "cars", .n 7]), ("id", .num 7),
          ("name", .str "x")]⟩) :=
  C7_fillIn_idempotent.2 ⟨[("$resource", .handle [.s "cars"])]⟩
    [("id", .num 7), ("name", .str "x")] (by decide)
    ⟨[("$resource", .handle [.s "cars", .n 7]), ("id", .num 7),
      ("name", .str "x")]⟩
    [("id", .num 7), ("name", .str "x")] (by decide)

/-- C8: the case converter is NOT total: on the input `a-` (likewise on any
input containing, past index 0, a character equal to both its own uppercase
and lowercase forms, such as a digit) the loop re-inserts a trigger
character forever, so no amount of fuel makes it return a string. -/
theorem C8_camelToKebab_divergence : camelToKebabDiverges "a-" :=
  fun fuel => camelToKebab_diverges_input fuel

/-- C9 counterexample: on `XX` the code returns `-x-x` (the guard also
fires on index 0 matches through first-occurrence `replace`), while the
claimed per-character algorithm yields `x-x`. -/
theorem C9_spec_algorithm_counterexample :
    camelToKebabFuel 10 "XX" = some "-x-x" ∧
    specCamelToKebab "XX" = "x-x" ∧
    camelToKebabFuel 10 "XX" ≠ some (specCamelToKebab "XX") := by decide

/-- C9 (amended): the converter does map `repairAll` to `repair-all`, `id`
to `id`, and the empty string to the empty string; the general
per-character description of the claim does not hold (see the
counterexample), because the code replaces the FIRST occurrence of the
matched character and treats every character equal to its own uppercase as
a trigger. -/
theorem C9_examples_hold :
    camelToKebabFuel 20 "repairAll" = some "repair-all" ∧
    camelToKebabFuel 10 "id" = some "id" ∧
    camelToKebabFuel 10 "" = some "" := by decide

/-- C10: `getAPIHost` and `resourceName` are bound nowhere in the v1
module, and the v1 `Model` constructor faults with a `ReferenceError` for
every argument, before any CRUD operation of a built type can run. -/
theorem C10_constructorV1_reference_error :
    moduleEnvV1.contains "getAPIHost" = false ∧
    moduleEnvV1.contains "resourceName" = false ∧
    ∀ arg : JSValue, constructorV1 arg = .error .referenceError :=
  ⟨by decide, by decide, fun _ => rfl⟩

end Replimod
